import Mathlib

/-!
Verification development for the freemocap multi-camera calibration capture
pipeline, centred on `SharedViewAccumulator`
(src/freemocap/pipelines/calibration_pipeline/shared_view_accumulator.py),
`CalibrationCameraNode._run`
(src/freemocap/pipelines/calibration_pipeline/calibration_camera_node.py) and
`Positional6DoF.transformation_matrix`
(src/freemocap/pipelines/calibration_pipeline/positional_6dof.py).

Python dictionaries are embedded as association lists with Python's
insertion-order semantics: assigning to an existing key replaces the value in
place, assigning to a fresh key appends at the end.  Python's `KeyError` (as
raised by `counts[camera_id] += 1` on a missing key) is embedded with
`Option`, and `AttributeError` on a pydantic model with `Except`.
-/

abbrev CameraId := Nat

abbrev MultiFrameNumber := Nat

/-- Modelled from the spec: the module
`freemocap/pipelines/calibration_pipeline/calibration_camera_node_output_data.py`
(imported by `shared_view_accumulator.py`) is not part of the provided source.
Per spec section 3, an Observation carries `can_see_target : bool`, optional
detected target geometry, and a capture timestamp; the geometry payload is
abstracted to an opaque identifier. -/
structure CalibrationCameraNodeOutputData where
  can_see_target : Bool
  target_geometry : Option Nat
  timestamp : Nat
deriving DecidableEq, Repr

/-- Python `d[k] = v` on a `dict`: replace in place when the key is present,
append at the end when it is fresh. -/
def dictSet {K V : Type} [DecidableEq K] (d : List (K × V)) (k : K) (v : V) :
    List (K × V) :=
  if k ∈ d.map Prod.fst then
    d.map (fun p => if p.1 = k then (k, v) else p)
  else
    d ++ [(k, v)]

/-- Python `d[k] += 1` on a `dict (K, int)`: `none` models the `KeyError`
raised when `k` is not a key of `d`. -/
def dictIncr (d : List (CameraId × Nat)) (c : CameraId) :
    Option (List (CameraId × Nat)) :=
  if c ∈ d.map Prod.fst then
    some (d.map (fun p => if p.1 = c then (p.1, p.2 + 1) else p))
  else
    none

/-- `TargetViewByCamera` (shared_view_accumulator.py, lines 9-20):
one synchronized multi-frame's observations, keyed by camera. -/
structure TargetViewByCamera where
  multi_frame_number : MultiFrameNumber
  views_by_camera : List (CameraId × CalibrationCameraNodeOutputData)
deriving DecidableEq, Repr

/-- `TargetViewByCamera.cameras_that_can_see_target`: the camera ids of the
stored views whose `can_see_target` flag is true, in dict order. -/
def TargetViewByCamera.cameras_that_can_see_target (t : TargetViewByCamera) :
    List CameraId :=
  (t.views_by_camera.filter (fun p => p.2.can_see_target)).map Prod.fst

/-- `TargetViewByCamera.multiple_cameras_can_see_target`:
true when at least two cameras see the target at this multi-frame. -/
def TargetViewByCamera.multiple_cameras_can_see_target (t : TargetViewByCamera) :
    Bool :=
  decide (t.cameras_that_can_see_target.length > 1)

/-- `SharedViewAccumulator` (shared_view_accumulator.py, lines 22-55). -/
structure SharedViewAccumulator where
  camera_ids : List CameraId
  shared_views_by_frame : List (MultiFrameNumber × TargetViewByCamera)
deriving DecidableEq, Repr

/-- `SharedViewAccumulator.create`: fresh accumulator with an empty frame map. -/
def SharedViewAccumulator.create (camera_ids : List CameraId) :
    SharedViewAccumulator :=
  { camera_ids := camera_ids, shared_views_by_frame := [] }

/-- The dict comprehension `{camera_id: 0 for camera_id in self.camera_ids}`. -/
def initCounts (ids : List CameraId) : List (CameraId × Nat) :=
  ids.foldl (fun d c => dictSet d c 0) []

/-- The inner `for camera_id in ... : counts[camera_id] += 1` loop body of
`shared_view_count_by_camera` for a single frame entry; `none` models the
`KeyError` raised when a seeing camera is not a key of the counts dict. -/
def applyFrameEntry (t : TargetViewByCamera) (d : List (CameraId × Nat)) :
    Option (List (CameraId × Nat)) :=
  if t.multiple_cameras_can_see_target then
    t.cameras_that_can_see_target.foldlM dictIncr d
  else
    some d

/-- `SharedViewAccumulator.shared_view_count_by_camera` (lines 36-43):
initialize every known camera's count to zero, then for every stored frame
entry with at least two seeing cameras, increment each seeing camera's count.
`none` models the `KeyError` on a seeing camera missing from `camera_ids`. -/
def SharedViewAccumulator.shared_view_count_by_camera (s : SharedViewAccumulator) :
    Option (List (CameraId × Nat)) :=
  (s.shared_views_by_frame.map Prod.snd).foldlM
    (fun d t => applyFrameEntry t d) (initCounts s.camera_ids)

/-- `SharedViewAccumulator.shared_target_views` (lines 45-47): the stored
frame entries, in dict (insertion) order, restricted to those where multiple
cameras can see the target. -/
def SharedViewAccumulator.shared_target_views (s : SharedViewAccumulator) :
    List TargetViewByCamera :=
  (s.shared_views_by_frame.map Prod.snd).filter
    (fun t => t.multiple_cameras_can_see_target)

/-- `SharedViewAccumulator.receive_camera_node_output` (lines 49-52): filter
the delivered per-camera outputs down to those that can see the target, and
assign the resulting `TargetViewByCamera` to the frame map at
`multi_frame_number` (Python dict assignment: replace or append). -/
def SharedViewAccumulator.receive_camera_node_output (s : SharedViewAccumulator)
    (multi_frame_number : MultiFrameNumber)
    (camera_node_output : List (CameraId × CalibrationCameraNodeOutputData)) :
    SharedViewAccumulator :=
  let cameras_that_can_see_target :=
    camera_node_output.filter (fun p => p.2.can_see_target)
  let entry : TargetViewByCamera :=
    { multi_frame_number := multi_frame_number,
      views_by_camera := cameras_that_can_see_target }
  { s with shared_views_by_frame :=
      dictSet s.shared_views_by_frame multi_frame_number entry }

/-- `SharedViewAccumulator.all_cameras_have_min_shared_views` (lines 54-55):
`all(shared_views >= min_shared_views for shared_views in counts.values())`;
the `Option` propagates the `KeyError` of computing the counts. -/
def SharedViewAccumulator.all_cameras_have_min_shared_views
    (s : SharedViewAccumulator) (min_shared_views : Nat) : Option Bool :=
  s.shared_view_count_by_camera.map
    (fun d => d.all (fun p => min_shared_views ≤ p.2))

/-- A finite sequence of deliveries to the accumulator, each one call to
`receive_camera_node_output`. -/
def deliverAll (s : SharedViewAccumulator)
    (ds : List (MultiFrameNumber × List (CameraId × CalibrationCameraNodeOutputData))) :
    SharedViewAccumulator :=
  ds.foldl (fun acc d => acc.receive_camera_node_output d.1 d.2) s

/-- The frame entry `receive_camera_node_output` builds from one delivery. -/
def mkFrameEntry
    (d : MultiFrameNumber × List (CameraId × CalibrationCameraNodeOutputData)) :
    MultiFrameNumber × TargetViewByCamera :=
  (d.1, { multi_frame_number := d.1,
          views_by_camera := d.2.filter (fun p => p.2.can_see_target) })

/-- Observation that sees the target. -/
def obsSee : CalibrationCameraNodeOutputData :=
  { can_see_target := true, target_geometry := some 0, timestamp := 0 }

/-- Observation that does not see the target. -/
def obsMiss : CalibrationCameraNodeOutputData :=
  { can_see_target := false, target_geometry := none, timestamp := 0 }

/-- Python `d[k]` read on a `dict`: first (unique) matching key. -/
def dictGet {K V : Type} [DecidableEq K] : List (K × V) → K → Option V
  | [], _ => none
  | p :: d, k => if p.1 = k then some p.2 else dictGet d k

/-! ## Camera observation node (`CalibrationCameraNode._run`)

The `_run` loop (calibration_camera_node.py, lines 63-91) polls a shutdown
event; when a new frame is available it runs the tracker's `process_image`
and puts the result on the output queue.  Any exception escapes the `while`,
is logged by the `except` clause and re-raised, and the `finally` clause sets
the shared shutdown event and closes the shared memory.  The loop's
environment is embedded as a schedule of iterations (`none` = no new frame,
`some image` = a frame bearing that image), and the tracker as a function
that may raise (`Except.error`). -/

/-- Outcome of running `_run` for a finite schedule of loop iterations. -/
inductive RunOutcome where
  | running : RunOutcome
  | exited : RunOutcome
  | raised : Nat → RunOutcome
deriving DecidableEq, Repr

/-- The mutable context `_run` touches: the shared shutdown event, the
output queue contents, and whether the shared-memory handle was closed. -/
structure CameraNodeState where
  shutdown_event : Bool
  output_queue : List CalibrationCameraNodeOutputData
  shm_closed : Bool
deriving DecidableEq, Repr

/-- The `finally` clause of `_run`: `shutdown_event.set()` then
`camera_ring_shm.close()`. -/
def nodeFinally (st : CameraNodeState) : CameraNodeState :=
  { st with shutdown_event := true, shm_closed := true }

/-- `CalibrationCameraNode._run`, lines 78-91: `while not shutdown_event` poll
loop; a tracker exception propagates out of the loop, is re-raised by the
`except` clause, and the `finally` clause runs in every case the loop is
left.  `RunOutcome.running` marks a schedule that ends with the loop still
going. -/
def CalibrationCameraNode.runFrom
    (process_image : Nat → Except Nat CalibrationCameraNodeOutputData) :
    List (Option Nat) → CameraNodeState → CameraNodeState × RunOutcome
  | ticks, st =>
    if st.shutdown_event then
      (nodeFinally st, RunOutcome.exited)
    else
      match ticks with
      | [] => (st, RunOutcome.running)
      | tick :: rest =>
        match tick with
        | none => CalibrationCameraNode.runFrom process_image rest st
        | some image =>
          match process_image image with
          | Except.error e => (nodeFinally st, RunOutcome.raised e)
          | Except.ok observation =>
            CalibrationCameraNode.runFrom process_image rest
              { st with output_queue := st.output_queue ++ [observation] }

/-! ## `Positional6DoF` (positional_6dof.py)

`Positional6DoF` is a pydantic model with declared fields `translation` and
`rotation`.  Attribute access on the model resolves only those declared
fields; any other attribute name raises `AttributeError`, embedded as
`Except.error`.  The `transformation_matrix` property body reads
`self.rotation_vector` and `self.translation_vector`. -/

/-- `RotationVector` / `TranslationVector` (calibration_numpy_types): a
3-vector (`np.zeros((3))`-shaped value), abstracted over the entries. -/
abbrev RotationVector := List Int

abbrev TranslationVector := List Int

/-- `TransformationMatrix` (calibration_numpy_types): a matrix as rows. -/
abbrev TransformationMatrix := List (List Int)

/-- `Positional6DoF` (positional_6dof.py, lines 9-11): declared pydantic
fields `translation` and `rotation`. -/
structure Positional6DoF where
  translation : TranslationVector
  rotation : RotationVector
deriving DecidableEq, Repr

/-- Pydantic attribute access on `Positional6DoF`: only the declared fields
`translation` and `rotation` resolve; any other name raises
`AttributeError`. -/
def Positional6DoF.getattr (p : Positional6DoF) : String → Except String (List Int)
  | "translation" => Except.ok p.translation
  | "rotation" => Except.ok p.rotation
  | name => Except.error ("AttributeError: " ++ name)

/-- The 4x4 homogeneous matrix assembled by the property body once the
rotation matrix (from `cv2.Rodrigues`) and translation vector are in hand:
upper-left 3x3 rotation, rightmost column translation, bottom row
`[0, 0, 0, 1]`. -/
def assembleTransformationMatrix (rot : TransformationMatrix) (t : List Int) : TransformationMatrix :=
  [ [(rot.getD 0 []).getD 0 0, (rot.getD 0 []).getD 1 0, (rot.getD 0 []).getD 2 0, t.getD 0 0],
    [(rot.getD 1 []).getD 0 0, (rot.getD 1 []).getD 1 0, (rot.getD 1 []).getD 2 0, t.getD 1 0],
    [(rot.getD 2 []).getD 0 0, (rot.getD 2 []).getD 1 0, (rot.getD 2 []).getD 2 0, t.getD 2 0],
    [0, 0, 0, 1] ]

/-- `Positional6DoF.transformation_matrix` (positional_6dof.py, lines 13-26):
the body reads `self.rotation_vector` (for `cv2.Rodrigues`) and
`self.translation_vector`; `rodrigues` abstracts the external
`cv2.Rodrigues` routine. -/
def Positional6DoF.transformation_matrix (rodrigues : List Int → TransformationMatrix)
    (p : Positional6DoF) : Except String TransformationMatrix := do
  let rotation_vec ← p.getattr "rotation_vector"
  let translation_vec ← p.getattr "translation_vector"
  Except.ok (assembleTransformationMatrix (rodrigues rotation_vec) translation_vec)

/-! ## Basic lemmas about the Python-dict embedding -/

theorem map_fix {α : Type} {f : α → α} :
    ∀ l : List α, (∀ a ∈ l, f a = a) → l.map f = l := by
  intro l
  induction l with
  | nil => intro _; rfl
  | cons a t ih =>
    intro h
    rw [List.map_cons, h a (List.mem_cons_self a t),
      ih (fun b hb => h b (List.mem_cons_of_mem a hb))]

theorem map_fst_setval {K V : Type} [DecidableEq K] (d : List (K × V)) (k : K) (v : V) :
    (d.map (fun p => if p.1 = k then (k, v) else p)).map Prod.fst = d.map Prod.fst := by
  induction d with
  | nil => rfl
  | cons a t ih =>
    simp only [List.map_cons, ih]
    by_cases h : a.1 = k
    · simp [h]
    · simp [h]

theorem dictSet_mem_map_fst {K V : Type} [DecidableEq K] (d : List (K × V)) (k k' : K) (v : V) :
    k' ∈ (dictSet d k v).map Prod.fst ↔ (k' ∈ d.map Prod.fst ∨ k' = k) := by
  by_cases hk : k ∈ d.map Prod.fst
  · rw [dictSet, if_pos hk, map_fst_setval]
    exact ⟨Or.inl, fun h => h.elim id (fun e => e ▸ hk)⟩
  · rw [dictSet, if_neg hk]
    simp

theorem dictSet_of_fresh {K V : Type} [DecidableEq K] {d : List (K × V)} {k : K}
    (h : k ∉ d.map Prod.fst) (v : V) : dictSet d k v = d ++ [(k, v)] := by
  rw [dictSet, if_neg h]

theorem mem_dictSet {K V : Type} [DecidableEq K] {p : K × V} {d : List (K × V)} {k : K} {v : V}
    (h : p ∈ dictSet d k v) : (p ∈ d ∧ p.1 ≠ k) ∨ p = (k, v) := by
  by_cases hk : k ∈ d.map Prod.fst
  · rw [dictSet, if_pos hk] at h
    rcases List.mem_map.mp h with ⟨q, hq, rfl⟩
    by_cases hq1 : q.1 = k
    · right; simp [hq1]
    · left; exact ⟨by simp [hq1, hq], by simp [hq1]⟩
  · rw [dictSet, if_neg hk] at h
    rcases List.mem_append.mp h with h1 | h1
    · left
      refine ⟨h1, fun he => hk ?_⟩
      exact List.mem_map.mpr ⟨p, h1, he⟩
    · right; simpa using h1

theorem dictSet_idem {K V : Type} [DecidableEq K] (d : List (K × V)) (k : K) (v : V) :
    dictSet (dictSet d k v) k v = dictSet d k v := by
  have hmem : k ∈ (dictSet d k v).map Prod.fst :=
    (dictSet_mem_map_fst d k k v).mpr (Or.inr rfl)
  have hfix : ∀ p ∈ dictSet d k v, (if p.1 = k then (k, v) else p) = p := by
    intro p hp
    by_cases h1 : p.1 = k
    · rcases mem_dictSet hp with ⟨_, hne⟩ | he
      · exact absurd h1 hne
      · rw [if_pos h1, he]
    · rw [if_neg h1]
  generalize hD : dictSet d k v = D at hmem hfix ⊢
  rw [dictSet, if_pos hmem]
  exact map_fix D hfix

theorem dictGet_setval_ne {K V : Type} [DecidableEq K] (d : List (K × V)) (k k' : K) (v : V)
    (h : k' ≠ k) :
    dictGet (d.map (fun p => if p.1 = k then (k, v) else p)) k' = dictGet d k' := by
  induction d with
  | nil => rfl
  | cons a t ih =>
    by_cases h1 : a.1 = k
    · rw [List.map_cons, if_pos h1]
      show (if k = k' then some v else _) = (if a.1 = k' then some a.2 else _)
      rw [if_neg (fun e => h e.symm), if_neg (fun e : a.1 = k' => h (e.symm.trans h1))]
      exact ih
    · rw [List.map_cons, if_neg h1]
      show (if a.1 = k' then some a.2 else _) = (if a.1 = k' then some a.2 else _)
      by_cases h2 : a.1 = k'
      · rw [if_pos h2, if_pos h2]
      · rw [if_neg h2, if_neg h2]; exact ih

theorem dictGet_setval_self {K V : Type} [DecidableEq K] (d : List (K × V)) (k : K) (v : V)
    (h : k ∈ d.map Prod.fst) :
    dictGet (d.map (fun p => if p.1 = k then (k, v) else p)) k = some v := by
  induction d with
  | nil => simp at h
  | cons a t ih =>
    by_cases h1 : a.1 = k
    · rw [List.map_cons, if_pos h1]
      exact if_pos rfl
    · rw [List.map_cons, if_neg h1]
      rw [show dictGet (a :: _) k = dictGet _ k from if_neg h1]
      apply ih
      rcases List.mem_map.mp h with ⟨q, hq, hqk⟩
      rcases List.mem_cons.mp hq with rfl | hqt
      · exact absurd hqk h1
      · exact List.mem_map.mpr ⟨q, hqt, hqk⟩

theorem dictGet_append_ne {K V : Type} [DecidableEq K] (d : List (K × V)) (k k' : K) (v : V)
    (h : k' ≠ k) : dictGet (d ++ [(k, v)]) k' = dictGet d k' := by
  induction d with
  | nil =>
    show (if k = k' then some v else dictGet [] k') = none
    rw [if_neg (fun e => h e.symm)]
    rfl
  | cons a t ih =>
    show (if a.1 = k' then some a.2 else _) = (if a.1 = k' then some a.2 else _)
    by_cases h2 : a.1 = k'
    · rw [if_pos h2, if_pos h2]
    · rw [if_neg h2, if_neg h2]; exact ih

theorem dictGet_append_self {K V : Type} [DecidableEq K] (d : List (K × V)) (k : K) (v : V)
    (h : k ∉ d.map Prod.fst) : dictGet (d ++ [(k, v)]) k = some v := by
  induction d with
  | nil => exact if_pos rfl
  | cons a t ih =>
    have h1 : a.1 ≠ k := fun e => h (List.mem_map.mpr ⟨a, List.mem_cons_self a t, e⟩)
    have ht : k ∉ t.map Prod.fst := fun hm => h (by rw [List.map_cons]; exact List.mem_cons_of_mem _ hm)
    rw [List.cons_append]
    show (if a.1 = k then some a.2 else _) = some v
    rw [if_neg h1]
    exact ih ht

theorem dictGet_dictSet_self {K V : Type} [DecidableEq K] (d : List (K × V)) (k : K) (v : V) :
    dictGet (dictSet d k v) k = some v := by
  by_cases hk : k ∈ d.map Prod.fst
  · rw [dictSet, if_pos hk]
    exact dictGet_setval_self d k v hk
  · rw [dictSet, if_neg hk]
    exact dictGet_append_self d k v hk

theorem dictGet_dictSet_ne {K V : Type} [DecidableEq K] (d : List (K × V)) (k k' : K) (v : V)
    (h : k' ≠ k) : dictGet (dictSet d k v) k' = dictGet d k' := by
  by_cases hk : k ∈ d.map Prod.fst
  · rw [dictSet, if_pos hk]
    exact dictGet_setval_ne d k k' v h
  · rw [dictSet, if_neg hk]
    exact dictGet_append_ne d k k' v h

/-! ## Lemmas about the accumulator's frame map -/

theorem receive_frames (s : SharedViewAccumulator) (mfn : MultiFrameNumber)
    (out : List (CameraId × CalibrationCameraNodeOutputData)) :
    (s.receive_camera_node_output mfn out).shared_views_by_frame
      = dictSet s.shared_views_by_frame mfn (mkFrameEntry (mfn, out)).2 := rfl

theorem receive_camera_ids (s : SharedViewAccumulator) (mfn : MultiFrameNumber)
    (out : List (CameraId × CalibrationCameraNodeOutputData)) :
    (s.receive_camera_node_output mfn out).camera_ids = s.camera_ids := rfl

theorem deliverAll_nil (s : SharedViewAccumulator) : deliverAll s [] = s := rfl

theorem deliverAll_cons (s : SharedViewAccumulator) (d) (ds) :
    deliverAll s (d :: ds) = deliverAll (s.receive_camera_node_output d.1 d.2) ds := rfl

theorem deliverAll_camera_ids (ds) : ∀ s : SharedViewAccumulator,
    (deliverAll s ds).camera_ids = s.camera_ids := by
  induction ds with
  | nil => intro s; rfl
  | cons d t ih =>
    intro s
    rw [deliverAll_cons, ih, receive_camera_ids]

theorem deliverAll_frames (ds) : ∀ s : SharedViewAccumulator,
    (∀ d ∈ ds, d.1 ∉ s.shared_views_by_frame.map Prod.fst) →
    (ds.map Prod.fst).Nodup →
    (deliverAll s ds).shared_views_by_frame
      = s.shared_views_by_frame ++ ds.map mkFrameEntry := by
  induction ds with
  | nil => intro s _ _; simp [deliverAll_nil]
  | cons d t ih =>
    intro s hfresh hnodup
    rw [deliverAll_cons]
    have h1 : d.1 ∉ s.shared_views_by_frame.map Prod.fst :=
      hfresh d (List.mem_cons_self d t)
    have hframes : (s.receive_camera_node_output d.1 d.2).shared_views_by_frame
        = s.shared_views_by_frame ++ [mkFrameEntry d] := by
      rw [receive_frames, dictSet_of_fresh h1]
      rfl
    have hnodup' : (t.map Prod.fst).Nodup := (List.nodup_cons.mp (by simpa using hnodup)).2
    have hhead : d.1 ∉ t.map Prod.fst := (List.nodup_cons.mp (by simpa using hnodup)).1
    have hfresh' : ∀ d' ∈ t,
        d'.1 ∉ (s.receive_camera_node_output d.1 d.2).shared_views_by_frame.map Prod.fst := by
      intro d' hd'
      rw [hframes, List.map_append]
      intro hmem
      rcases List.mem_append.mp hmem with hA | hB
      · exact hfresh d' (List.mem_cons_of_mem d hd') hA
      · have : d'.1 = d.1 := by simpa [mkFrameEntry] using hB
        exact hhead (this ▸ List.mem_map.mpr ⟨d', hd', rfl⟩)
    rw [ih _ hfresh' hnodup', hframes, List.map_cons, List.append_assoc]
    rfl

/-! ## Commutation of the count-increment fold (for order-independence) -/

theorem map_fst_incr (d : List (CameraId × Nat)) (c : CameraId) :
    (d.map (fun p => if p.1 = c then (p.1, p.2 + 1) else p)).map Prod.fst
      = d.map Prod.fst := by
  induction d with
  | nil => rfl
  | cons a t ih =>
    simp only [List.map_cons, ih]
    by_cases h : a.1 = c
    · simp [h]
    · simp [h]

theorem map_incr_comm (d : List (CameraId × Nat)) (c c' : CameraId) :
    (d.map (fun p => if p.1 = c then (p.1, p.2 + 1) else p)).map
        (fun p => if p.1 = c' then (p.1, p.2 + 1) else p)
      = (d.map (fun p => if p.1 = c' then (p.1, p.2 + 1) else p)).map
        (fun p => if p.1 = c then (p.1, p.2 + 1) else p) := by
  induction d with
  | nil => rfl
  | cons a t ih =>
    simp only [List.map_cons, ih, List.cons.injEq, and_true]
    by_cases h : a.1 = c
    · by_cases h' : a.1 = c'
      · have hcc : c = c' := h.symm.trans h'
        subst hcc
        rfl
      · have hne : ¬c = c' := fun e => h' (h.trans e)
        simp [h, h', hne]
    · by_cases h' : a.1 = c'
      · have hne : ¬c' = c := fun e => h (h'.trans e)
        simp [h, h', hne]
      · simp [h, h']

theorem dictIncr_pos {d : List (CameraId × Nat)} {c : CameraId}
    (h : c ∈ d.map Prod.fst) :
    dictIncr d c = some (d.map (fun p => if p.1 = c then (p.1, p.2 + 1) else p)) :=
  if_pos h

theorem dictIncr_neg {d : List (CameraId × Nat)} {c : CameraId}
    (h : c ∉ d.map Prod.fst) : dictIncr d c = none :=
  if_neg h

theorem dictIncr_bind_comm (d : List (CameraId × Nat)) (c c' : CameraId) :
    (dictIncr d c).bind (fun x => dictIncr x c')
      = (dictIncr d c').bind (fun x => dictIncr x c) := by
  by_cases hc : c ∈ d.map Prod.fst
  · by_cases hc' : c' ∈ d.map Prod.fst
    · have m1 : c' ∈ (d.map (fun p => if p.1 = c then (p.1, p.2 + 1) else p)).map Prod.fst := by
        rw [map_fst_incr]; exact hc'
      have m2 : c ∈ (d.map (fun p => if p.1 = c' then (p.1, p.2 + 1) else p)).map Prod.fst := by
        rw [map_fst_incr]; exact hc
      rw [dictIncr_pos hc, dictIncr_pos hc', Option.some_bind, Option.some_bind,
        dictIncr_pos m1, dictIncr_pos m2]
      exact congrArg some (map_incr_comm d c c')
    · have m1 : c' ∉ (d.map (fun p => if p.1 = c then (p.1, p.2 + 1) else p)).map Prod.fst := by
        rw [map_fst_incr]; exact hc'
      rw [dictIncr_pos hc, dictIncr_neg hc', Option.some_bind, Option.none_bind,
        dictIncr_neg m1]
  · by_cases hc' : c' ∈ d.map Prod.fst
    · have m2 : c ∉ (d.map (fun p => if p.1 = c' then (p.1, p.2 + 1) else p)).map Prod.fst := by
        rw [map_fst_incr]; exact hc
      rw [dictIncr_pos hc', dictIncr_neg hc, Option.some_bind, Option.none_bind,
        dictIncr_neg m2]
    · rw [dictIncr_neg hc, dictIncr_neg hc', Option.none_bind, Option.none_bind]

theorem foldlM_option_cons {α β : Type} (f : β → α → Option β) (b : β) (a : α) (l : List α) :
    (a :: l).foldlM f b = (f b a).bind (fun x => l.foldlM f x) := by
  rw [List.foldlM_cons]
  rfl

theorem foldlM_option_nil {α β : Type} (f : β → α → Option β) (b : β) :
    ([] : List α).foldlM f b = some b := rfl

theorem dictIncr_foldlM_swap (L : List CameraId) (c : CameraId) :
    ∀ d, (dictIncr d c).bind (fun x => L.foldlM dictIncr x)
      = (L.foldlM dictIncr d).bind (fun x => dictIncr x c) := by
  induction L with
  | nil =>
    intro d
    rw [foldlM_option_nil, Option.some_bind]
    cases h : dictIncr d c with
    | none => rfl
    | some x => rfl
  | cons a L ih =>
    intro d
    simp only [foldlM_option_cons]
    rw [Option.bind_assoc]
    have step1 :
        (dictIncr d c).bind (fun x => (dictIncr x a).bind (fun y => L.foldlM dictIncr y))
          = ((dictIncr d c).bind (fun x => dictIncr x a)).bind
              (fun y => L.foldlM dictIncr y) := by
      rw [Option.bind_assoc]
    rw [step1, dictIncr_bind_comm d c a, Option.bind_assoc]
    apply congrArg
    funext x
    exact ih x

theorem foldlM_foldlM_swap (L : List CameraId) :
    ∀ (L' : List CameraId) (d : List (CameraId × Nat)),
      (L.foldlM dictIncr d).bind (fun x => L'.foldlM dictIncr x)
        = (L'.foldlM dictIncr d).bind (fun x => L.foldlM dictIncr x) := by
  induction L with
  | nil =>
    intro L' d
    rw [foldlM_option_nil, Option.some_bind]
    cases h : L'.foldlM dictIncr d with
    | none => rfl
    | some x => rw [Option.some_bind, foldlM_option_nil]
  | cons a L ih =>
    intro L' d
    rw [foldlM_option_cons, Option.bind_assoc]
    have step1 : ∀ x, (L.foldlM dictIncr x).bind (fun y => L'.foldlM dictIncr y)
        = (L'.foldlM dictIncr x).bind (fun y => L.foldlM dictIncr y) := fun x => ih L' x
    calc (dictIncr d a).bind
          (fun x => (L.foldlM dictIncr x).bind (fun y => L'.foldlM dictIncr y))
        = (dictIncr d a).bind
          (fun x => (L'.foldlM dictIncr x).bind (fun y => L.foldlM dictIncr y)) := by
          apply congrArg; funext x; exact step1 x
      _ = ((dictIncr d a).bind (fun x => L'.foldlM dictIncr x)).bind
          (fun y => L.foldlM dictIncr y) := by rw [Option.bind_assoc]
      _ = ((L'.foldlM dictIncr d).bind (fun x => dictIncr x a)).bind
          (fun y => L.foldlM dictIncr y) := by rw [dictIncr_foldlM_swap]
      _ = (L'.foldlM dictIncr d).bind
          (fun x => (dictIncr x a).bind (fun y => L.foldlM dictIncr y)) := by
          rw [Option.bind_assoc]
      _ = (L'.foldlM dictIncr d).bind (fun x => (a :: L).foldlM dictIncr x) := by
          apply congrArg; funext x; rw [foldlM_option_cons]

theorem applyFrameEntry_bind_comm (t t' : TargetViewByCamera)
    (d : List (CameraId × Nat)) :
    (applyFrameEntry t d).bind (fun x => applyFrameEntry t' x)
      = (applyFrameEntry t' d).bind (fun x => applyFrameEntry t x) := by
  by_cases h : t.multiple_cameras_can_see_target
  · by_cases h' : t'.multiple_cameras_can_see_target
    · simp only [applyFrameEntry, h, h', if_true]
      exact foldlM_foldlM_swap _ _ d
    · simp [applyFrameEntry, h, h']
  · by_cases h' : t'.multiple_cameras_can_see_target
    · simp [applyFrameEntry, h, h']
    · simp [applyFrameEntry, h, h']

theorem foldl_bind_none {α β : Type} (f : β → α → Option β) (l : List α) :
    l.foldl (fun acc a => acc.bind (fun x => f x a)) none = none := by
  induction l with
  | nil => rfl
  | cons a t ih => rw [List.foldl_cons, Option.none_bind]; exact ih

theorem foldlM_option_eq_foldl {α β : Type} (f : β → α → Option β) (l : List α) :
    ∀ b, l.foldlM f b = l.foldl (fun acc a => acc.bind (fun x => f x a)) (some b) := by
  induction l with
  | nil => intro b; rfl
  | cons a t ih =>
    intro b
    rw [foldlM_option_cons, List.foldl_cons, Option.some_bind]
    cases h : f b a with
    | none => rw [Option.none_bind, foldl_bind_none]
    | some b' => rw [Option.some_bind, ih b']

theorem countFold_perm {es es' : List TargetViewByCamera} (hp : es.Perm es')
    (d : List (CameraId × Nat)) :
    es.foldlM (fun x t => applyFrameEntry t x) d
      = es'.foldlM (fun x t => applyFrameEntry t x) d := by
  rw [foldlM_option_eq_foldl, foldlM_option_eq_foldl]
  refine hp.foldl_eq' ?_ (some d)
  intro x _ y _ z
  cases z with
  | none => rfl
  | some w =>
    rw [Option.some_bind, Option.some_bind]
    exact applyFrameEntry_bind_comm x y w

/-! ## When does counting succeed (`KeyError` analysis)? -/

theorem dictIncr_isSome (d : List (CameraId × Nat)) (c : CameraId) :
    (dictIncr d c).isSome = true ↔ c ∈ d.map Prod.fst := by
  by_cases h : c ∈ d.map Prod.fst
  · rw [dictIncr_pos h]; simp [h]
  · rw [dictIncr_neg h]; simp [h]

theorem dictIncr_keys {d : List (CameraId × Nat)} {c : CameraId}
    {d' : List (CameraId × Nat)} (h : dictIncr d c = some d') :
    d'.map Prod.fst = d.map Prod.fst := by
  by_cases hc : c ∈ d.map Prod.fst
  · rw [dictIncr_pos hc] at h
    cases h
    exact map_fst_incr d c
  · rw [dictIncr_neg hc] at h
    cases h

theorem foldlM_dictIncr_keys (L : List CameraId) :
    ∀ {d d' : List (CameraId × Nat)}, L.foldlM dictIncr d = some d' →
      d'.map Prod.fst = d.map Prod.fst := by
  induction L with
  | nil =>
    intro d d' h
    rw [foldlM_option_nil] at h
    cases h
    rfl
  | cons a L ih =>
    intro d d' h
    rw [foldlM_option_cons] at h
    rcases Option.bind_eq_some.mp h with ⟨x, hx, hrest⟩
    rw [ih hrest, dictIncr_keys hx]

theorem foldlM_dictIncr_isSome (L : List CameraId) :
    ∀ d : List (CameraId × Nat),
      (L.foldlM dictIncr d).isSome = true ↔ ∀ c ∈ L, c ∈ d.map Prod.fst := by
  induction L with
  | nil => intro d; simp [foldlM_option_nil]
  | cons a L ih =>
    intro d
    rw [foldlM_option_cons]
    cases h : dictIncr d a with
    | none =>
      have ha : a ∉ d.map Prod.fst := by
        intro hmem
        have := (dictIncr_isSome d a).mpr hmem
        rw [h] at this
        simp at this
      rw [Option.none_bind]
      simp only [Option.isSome_none, Bool.false_eq_true, false_iff,
        List.forall_mem_cons]
      exact fun hab => ha hab.1
    | some x =>
      have ha : a ∈ d.map Prod.fst := (dictIncr_isSome d a).mp (by rw [h]; rfl)
      have hkeys : x.map Prod.fst = d.map Prod.fst := dictIncr_keys h
      rw [Option.some_bind, ih x]
      simp only [hkeys]
      rw [List.forall_mem_cons]
      exact ⟨fun hp => ⟨ha, hp⟩, fun hp => hp.2⟩

theorem applyFrameEntry_isSome (t : TargetViewByCamera) (d : List (CameraId × Nat)) :
    (applyFrameEntry t d).isSome = true ↔
      (t.multiple_cameras_can_see_target = true →
        ∀ c ∈ t.cameras_that_can_see_target, c ∈ d.map Prod.fst) := by
  by_cases h : t.multiple_cameras_can_see_target
  · simp [applyFrameEntry, h, foldlM_dictIncr_isSome]
  · simp [applyFrameEntry, h]

theorem applyFrameEntry_keys {t : TargetViewByCamera} {d d' : List (CameraId × Nat)}
    (h : applyFrameEntry t d = some d') : d'.map Prod.fst = d.map Prod.fst := by
  by_cases hm : t.multiple_cameras_can_see_target
  · rw [applyFrameEntry, if_pos hm] at h
    exact foldlM_dictIncr_keys _ h
  · rw [applyFrameEntry, if_neg hm] at h
    cases h
    rfl

theorem countFold_isSome (es : List TargetViewByCamera) :
    ∀ d : List (CameraId × Nat),
      ((es.foldlM (fun x t => applyFrameEntry t x) d).isSome = true) ↔
        ∀ t ∈ es, t.multiple_cameras_can_see_target = true →
          ∀ c ∈ t.cameras_that_can_see_target, c ∈ d.map Prod.fst := by
  induction es with
  | nil => intro d; simp [foldlM_option_nil]
  | cons e es ih =>
    intro d
    rw [foldlM_option_cons]
    cases h : applyFrameEntry e d with
    | none =>
      have he : ¬(e.multiple_cameras_can_see_target = true →
          ∀ c ∈ e.cameras_that_can_see_target, c ∈ d.map Prod.fst) := by
        intro hcond
        have := (applyFrameEntry_isSome e d).mpr hcond
        rw [h] at this
        simp at this
      rw [Option.none_bind]
      simp only [Option.isSome_none, Bool.false_eq_true, false_iff,
        List.forall_mem_cons]
      exact fun hab => he hab.1
    | some x =>
      have he : e.multiple_cameras_can_see_target = true →
          ∀ c ∈ e.cameras_that_can_see_target, c ∈ d.map Prod.fst :=
        (applyFrameEntry_isSome e d).mp (by rw [h]; rfl)
      have hkeys : x.map Prod.fst = d.map Prod.fst := applyFrameEntry_keys h
      rw [Option.some_bind, ih x]
      simp only [hkeys]
      rw [List.forall_mem_cons]
      exact ⟨fun hp => ⟨he, hp⟩, fun hp => hp.2⟩

theorem initCounts_mem (ids : List CameraId) (c : CameraId) :
    c ∈ (initCounts ids).map Prod.fst ↔ c ∈ ids := by
  suffices h : ∀ (L : List CameraId) (d : List (CameraId × Nat)),
      c ∈ (L.foldl (fun d k => dictSet d k 0) d).map Prod.fst ↔
        (c ∈ d.map Prod.fst ∨ c ∈ L) by
    have := h ids []
    simpa [initCounts] using this
  intro L
  induction L with
  | nil => intro d; simp
  | cons a t ih =>
    intro d
    rw [List.foldl_cons, ih, dictSet_mem_map_fst]
    simp [List.mem_cons]
    tauto

theorem shared_view_count_isSome_iff (s : SharedViewAccumulator) :
    (s.shared_view_count_by_camera.isSome = true) ↔
      ∀ t ∈ s.shared_views_by_frame.map Prod.snd,
        t.multiple_cameras_can_see_target = true →
          ∀ c ∈ t.cameras_that_can_see_target, c ∈ s.camera_ids := by
  rw [SharedViewAccumulator.shared_view_count_by_camera, countFold_isSome]
  simp only [initCounts_mem]

/-! ## Invariant: stored entries only hold observations that see the target -/

theorem receive_preserves_see (s : SharedViewAccumulator) (mfn : MultiFrameNumber)
    (out : List (CameraId × CalibrationCameraNodeOutputData))
    (h : ∀ e ∈ s.shared_views_by_frame, ∀ p ∈ e.2.views_by_camera,
      p.2.can_see_target = true) :
    ∀ e ∈ (s.receive_camera_node_output mfn out).shared_views_by_frame,
      ∀ p ∈ e.2.views_by_camera, p.2.can_see_target = true := by
  intro e he p hp
  rw [receive_frames] at he
  rcases mem_dictSet he with ⟨he1, _⟩ | rfl
  · exact h e he1 p hp
  · have hp' : p ∈ out.filter (fun q => q.2.can_see_target) := by
      simpa [mkFrameEntry] using hp
    simpa using (List.mem_filter.mp hp').2

theorem deliverAll_preserves_see (ds) : ∀ s : SharedViewAccumulator,
    (∀ e ∈ s.shared_views_by_frame, ∀ p ∈ e.2.views_by_camera,
      p.2.can_see_target = true) →
    ∀ e ∈ (deliverAll s ds).shared_views_by_frame,
      ∀ p ∈ e.2.views_by_camera, p.2.can_see_target = true := by
  induction ds with
  | nil => intro s h; exact h
  | cons d t ih =>
    intro s h
    rw [deliverAll_cons]
    exact ih _ (receive_preserves_see s d.1 d.2 h)

theorem accumulator_ext {s1 s2 : SharedViewAccumulator}
    (h1 : s1.camera_ids = s2.camera_ids)
    (h2 : s1.shared_views_by_frame = s2.shared_views_by_frame) : s1 = s2 := by
  cases s1
  cases s2
  cases h1
  cases h2
  rfl

/-! ## The claims -/

/-- Claim C1: for every finite set of deliveries with distinct multi-frame
numbers, `shared_view_count_by_camera` after all deliveries is the same for
every permutation of the delivery order. -/
theorem claim_C1_order_independence (ids : List CameraId)
    (ds1 ds2 : List (MultiFrameNumber × List (CameraId × CalibrationCameraNodeOutputData)))
    (hperm : ds1.Perm ds2) (hnodup : (ds1.map Prod.fst).Nodup) :
    (deliverAll (SharedViewAccumulator.create ids) ds1).shared_view_count_by_camera
      = (deliverAll (SharedViewAccumulator.create ids) ds2).shared_view_count_by_camera := by
  have hnodup2 : (ds2.map Prod.fst).Nodup := (hperm.map Prod.fst).nodup_iff.mp hnodup
  have hf1 := deliverAll_frames ds1 (SharedViewAccumulator.create ids)
    (fun d _ => by simp [SharedViewAccumulator.create]) hnodup
  have hf2 := deliverAll_frames ds2 (SharedViewAccumulator.create ids)
    (fun d _ => by simp [SharedViewAccumulator.create]) hnodup2
  rw [SharedViewAccumulator.shared_view_count_by_camera,
    SharedViewAccumulator.shared_view_count_by_camera,
    deliverAll_camera_ids, deliverAll_camera_ids, hf1, hf2]
  exact countFold_perm ((hperm.map mkFrameEntry).map Prod.snd) _

/-- Witness for Claim C1: two concrete permuted delivery sequences with
distinct frame numbers give the same counts. -/
theorem claim_C1_witness :
    (deliverAll (SharedViewAccumulator.create [0, 1])
        [(1, [(0, obsSee), (1, obsSee)]), (2, [(0, obsSee)])]).shared_view_count_by_camera
      = (deliverAll (SharedViewAccumulator.create [0, 1])
        [(2, [(0, obsSee)]), (1, [(0, obsSee), (1, obsSee)])]).shared_view_count_by_camera :=
  claim_C1_order_independence [0, 1]
    [(1, [(0, obsSee), (1, obsSee)]), (2, [(0, obsSee)])]
    [(2, [(0, obsSee)]), (1, [(0, obsSee), (1, obsSee)])]
    (by decide) (by decide)

/-- Counterexample to Claim C2: after a first delivery stores camera 0's
observation at frame 1, a second delivery for frame 1 mentioning only
camera 1 replaces the whole entry, removing camera 0's stored observation. -/
theorem claim_C2_counterexample :
    (0, obsSee) ∈ ((dictGet ((SharedViewAccumulator.create [0, 1]).receive_camera_node_output 1
          [(0, obsSee)]).shared_views_by_frame 1).getD
        { multi_frame_number := 0, views_by_camera := [] }).views_by_camera
    ∧ (0, obsSee) ∉ ((dictGet (((SharedViewAccumulator.create [0, 1]).receive_camera_node_output 1
          [(0, obsSee)]).receive_camera_node_output 1
          [(1, obsSee)]).shared_views_by_frame 1).getD
        { multi_frame_number := 0, views_by_camera := [] }).views_by_camera := by
  constructor
  · decide
  · decide

/-- Claim C2 (amended): `receive_camera_node_output` assigns the entry at the
delivered frame number wholesale, built from the current delivery alone
(replacing any previous entry at that frame number); entries at other frame
numbers are untouched and no frame number is ever removed. -/
theorem claim_C2_amended (s : SharedViewAccumulator) (mfn : MultiFrameNumber)
    (out : List (CameraId × CalibrationCameraNodeOutputData)) :
    dictGet (s.receive_camera_node_output mfn out).shared_views_by_frame mfn
      = some { multi_frame_number := mfn,
               views_by_camera := out.filter (fun p => p.2.can_see_target) }
    ∧ (∀ k, k ≠ mfn →
        dictGet (s.receive_camera_node_output mfn out).shared_views_by_frame k
          = dictGet s.shared_views_by_frame k)
    ∧ (∀ k ∈ s.shared_views_by_frame.map Prod.fst,
        k ∈ (s.receive_camera_node_output mfn out).shared_views_by_frame.map Prod.fst) := by
  refine ⟨?_, ?_, ?_⟩
  · rw [receive_frames]
    exact dictGet_dictSet_self _ _ _
  · intro k hk
    rw [receive_frames]
    exact dictGet_dictSet_ne _ _ _ _ hk
  · intro k hk
    rw [receive_frames]
    exact (dictSet_mem_map_fst _ _ _ _).mpr (Or.inl hk)

/-- Witness for Claim C2 (amended): a delivery at frame 1 leaves the
(absent) entry at frame 5 unchanged. -/
theorem claim_C2_amended_witness :
    dictGet ((SharedViewAccumulator.create [0, 1]).receive_camera_node_output 1
        [(0, obsSee)]).shared_views_by_frame 5
      = dictGet (SharedViewAccumulator.create [0, 1]).shared_views_by_frame 5 :=
  (claim_C2_amended (SharedViewAccumulator.create [0, 1]) 1 [(0, obsSee)]).2.1 5 (by decide)

/-- Counterexample to Claim C3: a detector exception on a frame ends the run
with the exception re-raised (the node terminates) and the shared shutdown
event set (session-wide shutdown), instead of being recorded as "cannot see
target" with the loop continuing. -/
theorem claim_C3_counterexample :
    (CalibrationCameraNode.runFrom (fun _ => Except.error 42) [some 7]
        { shutdown_event := false, output_queue := [], shm_closed := false }).2
      = RunOutcome.raised 42
    ∧ (CalibrationCameraNode.runFrom (fun _ => Except.error 42) [some 7]
        { shutdown_event := false, output_queue := [], shm_closed := false }).1.shutdown_event
      = true := by
  constructor
  · rfl
  · rfl

/-- Claim C3 (amended): when the tracker raises on a frame while the node is
running, the exception propagates (the loop terminates with it re-raised) and
the `finally` clause sets the shared shutdown event and closes the shared
memory; no observation is enqueued for the failing frame. -/
theorem claim_C3_amended (det : Nat → Except Nat CalibrationCameraNodeOutputData)
    (image e : Nat) (rest : List (Option Nat)) (st : CameraNodeState)
    (hrun : st.shutdown_event = false) (hdet : det image = Except.error e) :
    CalibrationCameraNode.runFrom det (some image :: rest) st
      = (nodeFinally st, RunOutcome.raised e)
    ∧ (CalibrationCameraNode.runFrom det (some image :: rest) st).1.shutdown_event = true
    ∧ (CalibrationCameraNode.runFrom det (some image :: rest) st).1.output_queue
      = st.output_queue := by
  have h1 : CalibrationCameraNode.runFrom det (some image :: rest) st
      = (nodeFinally st, RunOutcome.raised e) := by
    rw [CalibrationCameraNode.runFrom]
    simp [hrun, hdet]
  refine ⟨h1, ?_, ?_⟩
  · rw [h1]; rfl
  · rw [h1]; rfl

/-- Witness for Claim C3 (amended) at a concrete failing detector. -/
theorem claim_C3_amended_witness :
    CalibrationCameraNode.runFrom (fun _ => Except.error 7) [some 3]
        { shutdown_event := false, output_queue := [], shm_closed := false }
      = (nodeFinally { shutdown_event := false, output_queue := [], shm_closed := false },
          RunOutcome.raised 7) :=
  (claim_C3_amended (fun _ => Except.error 7) 3 7 []
    { shutdown_event := false, output_queue := [], shm_closed := false } rfl rfl).1

/-- Counterexample to Claim C4: delivering frame 2 before frame 1 (both
multi-view) makes `shared_target_views` come out in insertion order [2, 1],
which is not ascending MultiFrameNumber order. -/
theorem claim_C4_counterexample :
    ((deliverAll (SharedViewAccumulator.create [0, 1])
        [(2, [(0, obsSee), (1, obsSee)]),
         (1, [(0, obsSee), (1, obsSee)])]).shared_target_views.map
        TargetViewByCamera.multi_frame_number) = [2, 1]
    ∧ ¬ ((deliverAll (SharedViewAccumulator.create [0, 1])
        [(2, [(0, obsSee), (1, obsSee)]),
         (1, [(0, obsSee), (1, obsSee)])]).shared_target_views.map
        TargetViewByCamera.multi_frame_number).Sorted (· ≤ ·) := by
  constructor
  · decide
  · decide

/-- Claim C4 (amended): `shared_target_views` returns exactly the stored
entries whose multi-view status is true, in dict insertion order; the
sequence is in ascending MultiFrameNumber order when deliveries arrive in
ascending frame-number order (but not for arbitrary arrival orders). -/
theorem claim_C4_amended :
    (∀ (s : SharedViewAccumulator) (t : TargetViewByCamera),
        t ∈ s.shared_target_views ↔
          t ∈ s.shared_views_by_frame.map Prod.snd
            ∧ t.multiple_cameras_can_see_target = true)
    ∧ (∀ (ids : List CameraId)
        (ds : List (MultiFrameNumber × List (CameraId × CalibrationCameraNodeOutputData))),
        (ds.map Prod.fst).Sorted (· < ·) →
        ((deliverAll (SharedViewAccumulator.create ids) ds).shared_target_views.map
            TargetViewByCamera.multi_frame_number).Sorted (· < ·)) := by
  constructor
  · intro s t
    rw [SharedViewAccumulator.shared_target_views]
    exact List.mem_filter
  · intro ids ds hsorted
    have hnodup : (ds.map Prod.fst).Nodup := hsorted.imp Nat.ne_of_lt
    have hf := deliverAll_frames ds (SharedViewAccumulator.create ids)
      (fun d _ => by simp [SharedViewAccumulator.create]) hnodup
    rw [SharedViewAccumulator.shared_target_views, hf]
    have h1 : ((ds.map mkFrameEntry).map Prod.snd).Pairwise
        (fun a b => a.multi_frame_number < b.multi_frame_number) := by
      rw [List.pairwise_map, List.pairwise_map]
      exact List.pairwise_map.mp hsorted
    have h2 := h1.filter (fun t => t.multiple_cameras_can_see_target)
    show ((((ds.map mkFrameEntry).map Prod.snd).filter
        (fun t => t.multiple_cameras_can_see_target)).map
        TargetViewByCamera.multi_frame_number).Pairwise (· < ·)
    rw [List.pairwise_map]
    exact h2

/-- Witness for Claim C4 (amended): deliveries in ascending frame order give
an ascending `shared_target_views` sequence. -/
theorem claim_C4_amended_witness :
    ((deliverAll (SharedViewAccumulator.create [0, 1])
        [(1, [(0, obsSee), (1, obsSee)]),
         (2, [(0, obsSee), (1, obsSee)])]).shared_target_views.map
        TargetViewByCamera.multi_frame_number).Sorted (· < ·) :=
  claim_C4_amended.2 [0, 1]
    [(1, [(0, obsSee), (1, obsSee)]), (2, [(0, obsSee), (1, obsSee)])]
    (by decide)

/-- Claim C5: with cameras 0 (A), 1 (B), 2 (C), where A and B see the target
in frames 1, 2, 3 and C never does, the counts are A:3, B:3, C:0 and the
minimum-shared-views predicate at threshold 1 is false. -/
theorem claim_C5_counts :
    (deliverAll (SharedViewAccumulator.create [0, 1, 2])
        [(1, [(0, obsSee), (1, obsSee), (2, obsMiss)]),
         (2, [(0, obsSee), (1, obsSee), (2, obsMiss)]),
         (3, [(0, obsSee), (1, obsSee), (2, obsMiss)])]).shared_view_count_by_camera
      = some [(0, 3), (1, 3), (2, 0)]
    ∧ (deliverAll (SharedViewAccumulator.create [0, 1, 2])
        [(1, [(0, obsSee), (1, obsSee), (2, obsMiss)]),
         (2, [(0, obsSee), (1, obsSee), (2, obsMiss)]),
         (3, [(0, obsSee), (1, obsSee), (2, obsMiss)])]).all_cameras_have_min_shared_views 1
      = some false := by
  constructor
  · decide
  · decide

/-- Claim C6: pairwise-disjoint co-views (A-B in frames 1-2, B-C in 3-4,
A-C in 5-6) give every camera a shared-view count of 4 and make the
threshold-2 predicate true, while each camera pair co-sees in only 2 frames
(the pairwise-coverage gap). -/
theorem claim_C6_pairwise_gap :
    (deliverAll (SharedViewAccumulator.create [0, 1, 2])
        [(1, [(0, obsSee), (1, obsSee), (2, obsMiss)]),
         (2, [(0, obsSee), (1, obsSee), (2, obsMiss)]),
         (3, [(0, obsMiss), (1, obsSee), (2, obsSee)]),
         (4, [(0, obsMiss), (1, obsSee), (2, obsSee)]),
         (5, [(0, obsSee), (1, obsMiss), (2, obsSee)]),
         (6, [(0, obsSee), (1, obsMiss), (2, obsSee)])]).shared_view_count_by_camera
      = some [(0, 4), (1, 4), (2, 4)]
    ∧ (deliverAll (SharedViewAccumulator.create [0, 1, 2])
        [(1, [(0, obsSee), (1, obsSee), (2, obsMiss)]),
         (2, [(0, obsSee), (1, obsSee), (2, obsMiss)]),
         (3, [(0, obsMiss), (1, obsSee), (2, obsSee)]),
         (4, [(0, obsMiss), (1, obsSee), (2, obsSee)]),
         (5, [(0, obsSee), (1, obsMiss), (2, obsSee)]),
         (6, [(0, obsSee), (1, obsMiss), (2, obsSee)])]).all_cameras_have_min_shared_views 2
      = some true
    ∧ (((deliverAll (SharedViewAccumulator.create [0, 1, 2])
        [(1, [(0, obsSee), (1, obsSee), (2, obsMiss)]),
         (2, [(0, obsSee), (1, obsSee), (2, obsMiss)]),
         (3, [(0, obsMiss), (1, obsSee), (2, obsSee)]),
         (4, [(0, obsMiss), (1, obsSee), (2, obsSee)]),
         (5, [(0, obsSee), (1, obsMiss), (2, obsSee)]),
         (6, [(0, obsSee), (1, obsMiss), (2, obsSee)])]).shared_views_by_frame.map
          Prod.snd).countP
        (fun t => decide (0 ∈ t.cameras_that_can_see_target
          ∧ 1 ∈ t.cameras_that_can_see_target)) = 2
      ∧ ((deliverAll (SharedViewAccumulator.create [0, 1, 2])
        [(1, [(0, obsSee), (1, obsSee), (2, obsMiss)]),
         (2, [(0, obsSee), (1, obsSee), (2, obsMiss)]),
         (3, [(0, obsMiss), (1, obsSee), (2, obsSee)]),
         (4, [(0, obsMiss), (1, obsSee), (2, obsSee)]),
         (5, [(0, obsSee), (1, obsMiss), (2, obsSee)]),
         (6, [(0, obsSee), (1, obsMiss), (2, obsSee)])]).shared_views_by_frame.map
          Prod.snd).countP
        (fun t => decide (1 ∈ t.cameras_that_can_see_target
          ∧ 2 ∈ t.cameras_that_can_see_target)) = 2
      ∧ ((deliverAll (SharedViewAccumulator.create [0, 1, 2])
        [(1, [(0, obsSee), (1, obsSee), (2, obsMiss)]),
         (2, [(0, obsSee), (1, obsSee), (2, obsMiss)]),
         (3, [(0, obsMiss), (1, obsSee), (2, obsSee)]),
         (4, [(0, obsMiss), (1, obsSee), (2, obsSee)]),
         (5, [(0, obsSee), (1, obsMiss), (2, obsSee)]),
         (6, [(0, obsSee), (1, obsMiss), (2, obsSee)])]).shared_views_by_frame.map
          Prod.snd).countP
        (fun t => decide (0 ∈ t.cameras_that_can_see_target
          ∧ 2 ∈ t.cameras_that_can_see_target)) = 2) := by
  refine ⟨by decide, by decide, by decide, by decide, by decide⟩

/-- Claim C7: delivering the same observation content for the same
multi-frame number a second time leaves the accumulator state (and hence
`shared_view_count_by_camera`) unchanged — last write wins with an equal
value. -/
theorem claim_C7_idempotent (s : SharedViewAccumulator) (mfn : MultiFrameNumber)
    (out : List (CameraId × CalibrationCameraNodeOutputData)) :
    (s.receive_camera_node_output mfn out).receive_camera_node_output mfn out
      = s.receive_camera_node_output mfn out
    ∧ ((s.receive_camera_node_output mfn out).receive_camera_node_output
        mfn out).shared_view_count_by_camera
      = (s.receive_camera_node_output mfn out).shared_view_count_by_camera := by
  have h : (s.receive_camera_node_output mfn out).receive_camera_node_output mfn out
      = s.receive_camera_node_output mfn out := by
    apply accumulator_ext
    · rfl
    · rw [receive_frames, receive_frames]
      exact dictSet_idem _ _ _
  exact ⟨h, congrArg SharedViewAccumulator.shared_view_count_by_camera h⟩

/-- Claim C8: every entry stored by deliveries contains only observations
whose `can_see_target` flag is true, so `cameras_that_can_see_target` equals
the full key list of `views_by_camera`. -/
theorem claim_C8_stored_entries_see (ids : List CameraId)
    (ds : List (MultiFrameNumber × List (CameraId × CalibrationCameraNodeOutputData))) :
    ∀ e ∈ (deliverAll (SharedViewAccumulator.create ids) ds).shared_views_by_frame,
      (∀ p ∈ e.2.views_by_camera, p.2.can_see_target = true)
      ∧ e.2.cameras_that_can_see_target = e.2.views_by_camera.map Prod.fst := by
  intro e he
  have hsee : ∀ p ∈ e.2.views_by_camera, p.2.can_see_target = true :=
    deliverAll_preserves_see ds (SharedViewAccumulator.create ids)
      (fun e' he' => by simp [SharedViewAccumulator.create] at he') e he
  refine ⟨hsee, ?_⟩
  rw [TargetViewByCamera.cameras_that_can_see_target,
    List.filter_eq_self.mpr (fun p hp => hsee p hp)]

/-- Witness for Claim C8 at a concrete delivery: the stored entry at frame 1
keeps only camera 0's (seeing) observation, and its seeing-camera list is its
key list. -/
theorem claim_C8_witness :
    (∀ p ∈ (({ multi_frame_number := 1, views_by_camera := [(0, obsSee)] }
        : TargetViewByCamera)).views_by_camera, p.2.can_see_target = true)
    ∧ ({ multi_frame_number := 1, views_by_camera := [(0, obsSee)] }
        : TargetViewByCamera).cameras_that_can_see_target
      = ({ multi_frame_number := 1, views_by_camera := [(0, obsSee)] }
        : TargetViewByCamera).views_by_camera.map Prod.fst :=
  claim_C8_stored_entries_see [0, 1] [(1, [(0, obsSee), (1, obsMiss)])]
    (1, { multi_frame_number := 1, views_by_camera := [(0, obsSee)] }) (by decide)

/-- Claim C9: under the stored-entries-see invariant,
`shared_view_count_by_camera` hits the `KeyError` branch (returns `none`)
whenever some stored multi-view entry contains a camera id outside
`camera_ids`, and is total when every stored camera id is in `camera_ids`. -/
theorem claim_C9_partiality (s : SharedViewAccumulator)
    (hsee : ∀ e ∈ s.shared_views_by_frame, ∀ p ∈ e.2.views_by_camera,
      p.2.can_see_target = true) :
    ((∃ e ∈ s.shared_views_by_frame, e.2.multiple_cameras_can_see_target = true
        ∧ ∃ c ∈ e.2.views_by_camera.map Prod.fst, c ∉ s.camera_ids) →
      s.shared_view_count_by_camera = none)
    ∧ ((∀ e ∈ s.shared_views_by_frame, ∀ c ∈ e.2.views_by_camera.map Prod.fst,
        c ∈ s.camera_ids) →
      s.shared_view_count_by_camera.isSome = true) := by
  constructor
  · rintro ⟨e, he, hmult, c, hc, hnotin⟩
    have hcsee : c ∈ e.2.cameras_that_can_see_target := by
      rw [TargetViewByCamera.cameras_that_can_see_target]
      rcases List.mem_map.mp hc with ⟨p, hp, rfl⟩
      exact List.mem_map.mpr
        ⟨p, List.mem_filter.mpr ⟨hp, by simp [hsee e he p hp]⟩, rfl⟩
    have hnot : ¬(s.shared_view_count_by_camera.isSome = true) := by
      rw [shared_view_count_isSome_iff]
      intro hall
      exact hnotin (hall e.2 (List.mem_map.mpr ⟨e, he, rfl⟩) hmult c hcsee)
    exact Option.not_isSome_iff_eq_none.mp hnot
  · intro hall
    rw [shared_view_count_isSome_iff]
    intro t ht hmult c hc
    rcases List.mem_map.mp ht with ⟨e, he, rfl⟩
    apply hall e he
    rw [TargetViewByCamera.cameras_that_can_see_target] at hc
    rcases List.mem_map.mp hc with ⟨p, hp, rfl⟩
    exact List.mem_map.mpr ⟨p, (List.mem_filter.mp hp).1, rfl⟩

/-- Witness for Claim C9: a state whose stored multi-view entry mentions
camera 5, absent from `camera_ids = [0, 1]`, makes the count `none`. -/
theorem claim_C9_witness :
    ({ camera_ids := [0, 1],
       shared_views_by_frame :=
        [(1, { multi_frame_number := 1,
               views_by_camera := [(0, obsSee), (5, obsSee)] })] }
      : SharedViewAccumulator).shared_view_count_by_camera = none :=
  (claim_C9_partiality
    { camera_ids := [0, 1],
      shared_views_by_frame :=
        [(1, { multi_frame_number := 1,
               views_by_camera := [(0, obsSee), (5, obsSee)] })] }
    (by decide)).1 (by decide)

/-- Claim C10: `Positional6DoF.transformation_matrix` reads the undeclared
attributes `rotation_vector` and `translation_vector` (the fields are named
`rotation` and `translation`), so it raises `AttributeError` on every
invocation and never returns a matrix, for any external Rodrigues routine. -/
theorem claim_C10_attribute_error (rodrigues : List Int → TransformationMatrix)
    (p : Positional6DoF) :
    p.transformation_matrix rodrigues
      = Except.error "AttributeError: rotation_vector"
    ∧ ∀ m : TransformationMatrix, p.transformation_matrix rodrigues ≠ Except.ok m := by
  refine ⟨rfl, fun m h => ?_⟩
  rw [show p.transformation_matrix rodrigues
      = Except.error "AttributeError: rotation_vector" from rfl] at h
  exact Except.noConfusion h
